import Mathlib

/-!
Verification of the demusifier job-pipeline specification against a shallow
embedding of the repository's code (`main.py`, `process.py`).

Modelling conventions:
* File paths are modelled by their file names; each directory of the
  application (`INPUT_DIR`, `OUTPUT_DIR`, `WORKING_DIR`) is modelled as one
  field of the `FS` record holding the names that currently exist there.
* Entries of the output store carry a tag recording which pipeline run wrote
  them, so that overwriting (`shutil.move` onto an existing name) is
  observable.
* External effects (the two ffmpeg invocations and the Replicate call) are
  the fallible operations of the pipeline; their outcomes are supplied by an
  `ExternalWorld` oracle.  Local filesystem primitives are modelled as
  always succeeding, except the deletions inside `cleanup_directories`,
  whose failures the source explicitly swallows and which are therefore
  driven by a `CleanupWorld` oracle.
* Timestamps (`time.time()`) are abstracted to a `Nat` argument `now`.
* `uuid.uuid4()` results are passed in as `String` arguments.
-/

namespace Demusifier

/-! ### Character-list string helpers (Python `str` operations) -/

/-- Drop `pat` from the front of `s`; `none` when `s` does not start with
`pat`.  Used to implement `startswith`, `endswith`, substring search and
`str.replace`. -/
def stripPre : List Char → List Char → Option (List Char)
  | [], s => some s
  | _ :: _, [] => none
  | p :: ps, c :: cs => if p = c then stripPre ps cs else none

/-- Python `s.startswith(pat)` on character lists. -/
def startsw (pat s : List Char) : Bool :=
  (stripPre pat s).isSome

/-- Python `s.endswith(suf)` on character lists. -/
def endsw (suf s : List Char) : Bool :=
  (stripPre suf.reverse s.reverse).isSome

/-- Python `pat in s` (substring test) on character lists. -/
def hasSub (pat : List Char) : List Char → Bool
  | [] => pat.isEmpty
  | c :: cs => (stripPre pat (c :: cs)).isSome || hasSub pat cs

/-- Fuelled worker for `str.replace`: replace every non-overlapping
left-to-right occurrence of `pat` by `rep`.  One unit of fuel is spent per
step and every step consumes at least one character, so fuel `s.length`
suffices. -/
def subAllFuel (pat rep : List Char) : Nat → List Char → List Char
  | 0, s => s
  | _ + 1, [] => []
  | fuel + 1, c :: cs =>
    if pat.isEmpty then c :: cs
    else
      match stripPre pat (c :: cs) with
      | some rest => rep ++ subAllFuel pat rep fuel rest
      | none => c :: subAllFuel pat rep fuel cs

/-- Python `s.replace(pat, rep)` (all occurrences) on character lists;
for an empty `pat` the input is returned unchanged (the source only ever
replaces the non-empty literal `"_processed"`). -/
def subAll (pat rep s : List Char) : List Char :=
  subAllFuel pat rep s.length s

/-- Python `s.startswith(pat)` on strings. -/
def strStarts (pat s : String) : Bool :=
  startsw pat.data s.data

/-- Python `s.endswith(suf)` on strings. -/
def strEnds (suf s : String) : Bool :=
  endsw suf.data s.data

/-- Python `pat in s` on strings. -/
def strHasSub (pat s : String) : Bool :=
  hasSub pat.data s.data

/-- Python `s.replace(pat, rep)` on strings. -/
def strReplaceAll (s pat rep : String) : String :=
  ⟨subAll pat.data rep.data s.data⟩

/-! ### `os.path.splitext` -/

/-- Worker on the reversed character list: find the last dot of the name
that has at least one non-dot character before it, and split there.  Returns
`(extension reversed, base reversed)` or `none` when there is no splitting
dot (mirrors CPython `genericpath._splitext`, which refuses to split when
everything before the last dot is dots, e.g. `".hidden"`). -/
def splitextRev : List Char → Option (List Char × List Char)
  | [] => none
  | c :: cs =>
    if c = '.' then
      if cs.any (fun x => x ≠ '.') then some ([c], cs) else none
    else
      match splitextRev cs with
      | some (e, b) => some (c :: e, b)
      | none => none

/-- `os.path.splitext` for bare file names (no directory component):
`splitext "foo.mp4" = ("foo", ".mp4")`, `splitext ".hidden" = (".hidden", "")`. -/
def splitext (s : String) : String × String :=
  match splitextRev s.data.reverse with
  | some (e, b) => (⟨b.reverse⟩, ⟨e.reverse⟩)
  | none => (s, "")

/-- ASCII lowering of one character (`str.lower` restricted to ASCII,
which covers the file extensions compared in the source). -/
def lowerChar (c : Char) : Char :=
  if 'A' ≤ c ∧ c ≤ 'Z' then Char.ofNat (c.toNat + 32) else c

/-- Python `s.lower()` for ASCII strings (structural, kernel-reducible). -/
def strLower (s : String) : String :=
  ⟨s.data.map lowerChar⟩

/-! ### Job records and the in-memory store (`main.py`) -/

def JOB_STATUS_PENDING : String := "pending"

def JOB_STATUS_DOWNLOADING : String := "downloading"

def JOB_STATUS_PROCESSING : String := "processing"

def JOB_STATUS_COMPLETE : String := "complete"

def JOB_STATUS_ERROR : String := "error"

/-- One entry of the `jobs` dict of `main.py` (the `id` key is stored in
the record as in the source). -/
structure Job where
  id : String
  video_file_path : String
  original_filename : String
  status : String
  created_at : Nat
  updated_at : Nat
  error_message : Option String
  output_file : Option String
  progress : Nat
deriving Repr, DecidableEq

/-- The filesystem state: names currently present in `INPUT_DIR`,
`OUTPUT_DIR` (each with the tag of the pipeline run that wrote it, or
`"placeholder"`), and `WORKING_DIR`. -/
structure FS where
  inputFiles : List String
  outputFiles : List (String × String)
  workingDirs : List String
deriving Repr, DecidableEq

/-- The whole mutable state of the server process: the `jobs` dict and the
filesystem. -/
structure ServerState where
  jobs : List (String × Job)
  fs : FS
deriving Repr, DecidableEq

def emptyFS : FS := { inputFiles := [], outputFiles := [], workingDirs := [] }

def emptyState : ServerState := { jobs := [], fs := emptyFS }

/-- Python dict lookup `jobs.get(k)` / `jobs[k]` as an association-list
find. -/
def dictGet (m : List (String × Job)) (k : String) : Option Job :=
  (m.find? (fun p => p.1 == k)).map (fun p => p.2)

/-- Python dict item assignment `jobs[k] = v` (lookup semantics; insertion
order is not modelled). -/
def dictSet (m : List (String × Job)) (k : String) (v : Job) : List (String × Job) :=
  (k, v) :: m.filter (fun p => p.1 ≠ k)

/-- Membership test for a name in the output store (`os.path.exists` under
`OUTPUT_DIR`). -/
def fsExists (fs : FS) (name : String) : Bool :=
  fs.outputFiles.any (fun p => p.1 == name)

/-- Create-or-overwrite a file in the output store (`open(..., "w"/"wb")`,
or the destination side of `shutil.move`). -/
def fsWrite (files : List (String × String)) (name tag : String) : List (String × String) :=
  (name, tag) :: files.filter (fun p => p.1 ≠ name)

/-- Remove a name from the output store (`os.remove`; removing an absent
name is a no-op, matching the `os.path.exists` guard in the source). -/
def fsRemove (files : List (String × String)) (name : String) : List (String × String) :=
  files.filter (fun p => p.1 ≠ name)

/-- `shutil.move src dst` inside the output store: the entry keeps its tag
and any existing file named `dst` is overwritten. -/
def fsMove (fs : FS) (src dst : String) : FS :=
  match fs.outputFiles.find? (fun p => p.1 == src) with
  | some e => { fs with outputFiles := fsWrite (fs.outputFiles.filter (fun p => p.1 ≠ src)) dst e.2 }
  | none => fs

/-- `os.makedirs(d, exist_ok=True)` for the working root. -/
def fsAddDir (fs : FS) (d : String) : FS :=
  if d ∈ fs.workingDirs then fs else { fs with workingDirs := d :: fs.workingDirs }

/-- Python truthiness of an optional string (`if error_message:` /
`if output_file:`): `None` and `""` are falsy. -/
def truthy : Option String → Bool
  | none => false
  | some s => s != ""

/-- The name of the placeholder marker file created for a job. -/
def placeholderName (job_id : String) : String :=
  job_id ++ "_placeholder.txt"

/-- `create_job` of `main.py`: register a fresh pending job and write its
placeholder file into the output store.  The generated uuid is the
`job_id` argument. -/
def create_job (st : ServerState) (job_id : String) (now : Nat)
    (video_file_path original_filename : String) : ServerState :=
  let j : Job :=
    { id := job_id
      video_file_path := video_file_path
      original_filename := original_filename
      status := JOB_STATUS_PENDING
      created_at := now
      updated_at := now
      error_message := none
      output_file := none
      progress := 0 }
  { jobs := dictSet st.jobs job_id j
    fs := { st.fs with outputFiles := fsWrite st.fs.outputFiles (placeholderName job_id) "placeholder" } }

/-- `update_job_status` of `main.py`.  Unknown ids are ignored; `progress`
is applied when not `None`; `error_message` and `output_file` are applied
only when truthy (Python `if error_message:` / `if output_file:`); setting
the output file also removes the placeholder file. -/
def update_job_status (st : ServerState) (job_id status : String) (now : Nat)
    (progress : Option Nat) (error_message : Option String)
    (output_file : Option String) : ServerState :=
  match dictGet st.jobs job_id with
  | none => st
  | some j =>
    let j1 := { j with status := status, updated_at := now }
    let j2 := match progress with
      | some p => { j1 with progress := p }
      | none => j1
    let j3 := if truthy error_message then { j2 with error_message := error_message } else j2
    if truthy output_file then
      { jobs := dictSet st.jobs job_id { j3 with output_file := output_file }
        fs := { st.fs with outputFiles := fsRemove st.fs.outputFiles (placeholderName job_id) } }
    else
      { st with jobs := dictSet st.jobs job_id j3 }

/-! ### Status query (`get_video_status` of `main.py`) -/

/-- The possible responses of the status endpoint, keeping exactly the data
the rendered pages embed. -/
inductive StatusView where
  | notFound (job_id : String)
  | processingView (job_id filename : String) (progress : Nat)
  | redirectToVideo (output_file : String)
  | completeNoOutput
  | errorView (message : Option String)
deriving Repr, DecidableEq

/-- `get_video_status` of `main.py`.  A pure function of the state: it
returns a view and performs no mutation.  Note the `is_processing`
disjunct: a job whose placeholder file still exists is shown the processing
view regardless of its status. -/
def get_video_status (st : ServerState) (job_id : String) : StatusView :=
  match dictGet st.jobs job_id with
  | none => .notFound job_id
  | some job =>
    let is_processing := fsExists st.fs (placeholderName job_id)
    if job.status == JOB_STATUS_PENDING || job.status == JOB_STATUS_DOWNLOADING
        || job.status == JOB_STATUS_PROCESSING || is_processing then
      .processingView job_id job.original_filename job.progress
    else if job.status == JOB_STATUS_COMPLETE then
      match job.output_file with
      | some f => if f != "" then .redirectToVideo f else .completeNoOutput
      | none => .completeNoOutput
    else
      .errorView job.error_message

/-! ### Workspace cleanup (`cleanup_directories` of `process.py`) -/

/-- Whether the two deletions inside `cleanup_directories` fail when
attempted (`shutil.rmtree` on the working directory, `os.remove` on the
input file). -/
structure CleanupWorld where
  rmtreeFails : Bool
  removeFails : Bool
deriving Repr, DecidableEq

/-- The body of the `try:` block of `cleanup_directories`: remove the
working directory if present, then the input file if present.  A raised
deletion error aborts the sequence and carries the filesystem state at the
point of failure. -/
def cleanup_attempt (w : CleanupWorld) (fs : FS)
    (working_dir input_file : Option String) : Except (String × FS) FS :=
  let step1 : Except (String × FS) FS :=
    match working_dir with
    | some d =>
      if d ∈ fs.workingDirs then
        if w.rmtreeFails then Except.error ("rmtree failed", fs)
        else Except.ok { fs with workingDirs := fs.workingDirs.filter (· ≠ d) }
      else Except.ok fs
    | none => Except.ok fs
  match step1 with
  | .error e => .error e
  | .ok fs1 =>
    match input_file with
    | some f =>
      if f ∈ fs1.inputFiles then
        if w.removeFails then Except.error ("remove failed", fs1)
        else Except.ok { fs1 with inputFiles := fs1.inputFiles.filter (· ≠ f) }
      else Except.ok fs1
    | none => Except.ok fs1

/-- `cleanup_directories` of `process.py`: the `except` clause swallows any
deletion error (logging it) and returns normally with the state reached at
the failure point. -/
def cleanup_directories (w : CleanupWorld) (fs : FS)
    (working_dir input_file : Option String) : FS :=
  match cleanup_attempt w fs working_dir input_file with
  | .ok fs' => fs'
  | .error e => e.2

/-! ### The pipeline (`process.py`) -/

/-- Outcome of one external invocation. -/
inductive StepOutcome where
  | ok
  | fail (msg : String)
deriving Repr, DecidableEq

/-- The behaviour of the external collaborators during one pipeline run:
the two ffmpeg invocations, the Replicate call, and whether
`REPLICATE_API_TOKEN` is configured. -/
structure ExternalWorld where
  tokenPresent : Bool
  split : StepOutcome
  isolate : StepOutcome
  merge : StepOutcome
deriving Repr, DecidableEq

/-- `Path(p).stem` for bare file names. -/
def pathStem (p : String) : String :=
  (splitext p).1

/-- `split_video_streams` of `process.py`: on success, the names of the
extracted audio and video-only files inside the workspace. -/
def split_video_streams (w : ExternalWorld) (video_path : String) :
    Except String (String × String) :=
  match w.split with
  | .ok => .ok (pathStem video_path ++ "_audio.mp3", pathStem video_path ++ "_video.mp4")
  | .fail m => .error m

/-- `isolate_vocals_with_replicate` of `process.py`: fails fast when the
token is missing, otherwise performs the remote call. -/
def isolate_vocals_with_replicate (w : ExternalWorld) (audio_path : String) :
    Except String String :=
  if !w.tokenPresent then
    .error "REPLICATE_API_TOKEN not found in environment variables"
  else
    match w.isolate with
    | .ok => .ok (pathStem audio_path ++ "_vocals.mp3")
    | .fail m => .error m

/-- `merge_audio_video_streams` of `process.py`. -/
def merge_audio_video_streams (w : ExternalWorld) (output_path : String) :
    Except String String :=
  match w.merge with
  | .ok => .ok output_path
  | .fail m => .error m

/-- The name of the per-job working directory created by `process_video`. -/
def workingDirName (pid : String) : String :=
  "job_" ++ pid

/-- The raw output name `{stem}_processed_{job_id}.mp4` generated by
`process_video`. -/
def rawOutputName (video_file pid : String) : String :=
  pathStem video_file ++ "_processed_" ++ pid ++ ".mp4"

/-- `process_video` of `process.py`.  `pid` is the uuid generated at the
top of the function (distinct from the web job id).  On success the result
carries the output path and the filesystem after the success-path cleanup
(which removes the workspace AND the input file); on error it carries the
exception message and the filesystem after the error-path cleanup (which
removes only the workspace). -/
def process_video (w : ExternalWorld) (cw : CleanupWorld) (fs : FS)
    (video_file : String) (dry_run cleanup : Bool) (pid : String) :
    Except (String × FS) (String × FS) :=
  let working_dir := workingDirName pid
  let fs0 := fsAddDir fs working_dir
  let output_filename := rawOutputName video_file pid
  let onError := fun (m : String) =>
    Except.error (m, if cleanup then cleanup_directories cw fs0 (some working_dir) none else fs0)
  match split_video_streams w video_file with
  | .error m => onError m
  | .ok (audio_path, _video_only_path) =>
    let vocalsE := if !dry_run then isolate_vocals_with_replicate w audio_path else .ok audio_path
    match vocalsE with
    | .error m => onError m
    | .ok _vocals_path =>
      match merge_audio_video_streams w output_filename with
      | .error m => onError m
      | .ok final_video_path =>
        let fs1 := { fs0 with outputFiles := fsWrite fs0.outputFiles final_video_path pid }
        let fs2 := if cleanup then cleanup_directories cw fs1 (some working_dir) (some video_file) else fs1
        .ok (final_video_path, fs2)

/-- The first uncaught exception message of a pipeline run, if any;
`none` means the run succeeds.  (The checks happen in source order: split,
token check, remote call, merge.) -/
def pipelineFailure (w : ExternalWorld) : Option String :=
  match w.split with
  | .fail m => some m
  | .ok =>
    if !w.tokenPresent then some "REPLICATE_API_TOKEN not found in environment variables"
    else
      match w.isolate with
      | .fail m => some m
      | .ok =>
        match w.merge with
        | .fail m => some m
        | .ok => none

/-- The clean output name `{base}_processed{ext}` derived from the
original filename in `process_video_async`. -/
def cleanName (original_filename : String) : String :=
  (splitext original_filename).1 ++ "_processed" ++ (splitext original_filename).2

/-- `process_video_async` of `main.py`: the background worker for one job.
It bumps the job to processing (25 then 50), runs `process_video` with
`dry_run=False` (and default `cleanup=True`), and finishes the job as
complete (moving the raw output to the clean name) or as error.  A raised
`KeyError` on the dict lookup would be caught by the same `except` clause. -/
def process_video_async (w : ExternalWorld) (cw : CleanupWorld) (st : ServerState)
    (job_id video_file_path pid : String) (now : Nat) : ServerState :=
  let st1 := update_job_status st job_id JOB_STATUS_PROCESSING now (some 25) none none
  let st2 := update_job_status st1 job_id JOB_STATUS_PROCESSING now (some 50) none none
  match process_video w cw st2.fs video_file_path false true pid with
  | .error (m, fs') =>
    update_job_status { st2 with fs := fs' } job_id JOB_STATUS_ERROR now (some 100) (some m) none
  | .ok (result_path, fs') =>
    if fsExists fs' result_path then
      match dictGet st2.jobs job_id with
      | some j =>
        let clean_filename := cleanName j.original_filename
        let fs'' := fsMove fs' result_path clean_filename
        update_job_status { st2 with fs := fs'' } job_id JOB_STATUS_COMPLETE now
          (some 100) none (some clean_filename)
      | none =>
        update_job_status { st2 with fs := fs' } job_id JOB_STATUS_ERROR now
          (some 100) (some "KeyError") none
    else
      update_job_status { st2 with fs := fs' } job_id JOB_STATUS_ERROR now
        (some 100) (some "Video processing failed or no output file generated") none

/-- The sequence of states of the job store that one background run makes
visible, starting from the state at thread start: after creation, after the
25% update, after the 50% update, and after the terminal update.  The
worker is the only writer of its job, and it performs exactly these
updates. -/
def pipelineTrace (w : ExternalWorld) (cw : CleanupWorld) (st : ServerState)
    (job_id video_file_path pid : String) (now : Nat) : List ServerState :=
  let st1 := update_job_status st job_id JOB_STATUS_PROCESSING now (some 25) none none
  let st2 := update_job_status st1 job_id JOB_STATUS_PROCESSING now (some 50) none none
  [st, st1, st2, process_video_async w cw st job_id video_file_path pid now]

/-! ### Upload intake (`create_video_job` of `main.py`) -/

/-- The responses of the upload handler. -/
inductive UploadResult where
  | noFile
  | invalidType (ext : String)
  | redirectToJob (job_id : String)
deriving Repr, DecidableEq

def allowed_extensions : List String := [".mp4", ".avi", ".mov", ".mkv", ".webm"]

/-- `create_video_job` of `main.py`.  `u1` is the uuid generated for the
stored filename; `u2` is the distinct uuid that `create_job` generates for
the job record (the source assigns both to the same variable `job_id`, the
second overwriting the first).  The redirect returned to the caller uses
`u2`. -/
def create_video_job (st : ServerState) (upload : Option String)
    (u1 u2 : String) (now : Nat) : ServerState × UploadResult :=
  match upload with
  | none => (st, .noFile)
  | some filename =>
    let file_ext := strLower (splitext filename).2
    if file_ext ∈ allowed_extensions then
      let safe_filename := u1 ++ "_" ++ filename
      let st1 : ServerState :=
        { st with fs := { st.fs with inputFiles := safe_filename :: st.fs.inputFiles.filter (· ≠ safe_filename) } }
      let st2 := create_job st1 u2 now safe_filename filename
      (st2, .redirectToJob u2)
    else
      (st, .invalidType file_ext)

/-! ### Artifact listing (`list_videos`, `extract_display_name` of `main.py`) -/

/-- One entry of `os.listdir(OUTPUT_DIR)` with its `os.path.getsize` and
`os.path.getctime`. -/
structure DirEntry where
  name : String
  sizeBytes : Nat
  ctime : Nat
deriving Repr, DecidableEq

/-- One row of the listing built by `list_videos` (the size is reported in
bytes; the source divides by 1024² for display, and formats the ctime,
both losslessly derived from these fields). -/
structure VideoRow where
  filename : String
  display_name : String
  sizeBytes : Nat
  ctime : Nat
deriving Repr, DecidableEq

/-- The filter of `list_videos`: a video extension and the `"_processed"`
naming convention. -/
def matchesConvention (fname : String) : Bool :=
  allowed_extensions.any (fun e => strEnds e fname) && strHasSub "_processed" fname

/-- `list_videos` of `main.py`: enumerate the output store, keeping files
that match the convention; the display name is the stem with every
`"_processed"` occurrence removed (`base.replace("_processed", "")`). -/
def list_videos (dir : List DirEntry) : List VideoRow :=
  (dir.filter (fun e => matchesConvention e.name)).map (fun e =>
    { filename := e.name
      display_name := strReplaceAll (splitext e.name).1 "_processed" ""
      sizeBytes := e.sizeBytes
      ctime := e.ctime })

/-- The character class `[0-9a-fA-F-]` of the id-stripping regexes. -/
def isHexDash (c : Char) : Bool :=
  ('0' ≤ c && c ≤ '9') || ('a' ≤ c && c ≤ 'f') || ('A' ≤ c && c ≤ 'F') || c = '-'

/-- `re.sub(r"^[0-9a-fA-F-]+_", "", s)`: since `_` is not in the class, the
greedy match strips the maximal leading class run exactly when it is
followed by an underscore. -/
def stripLeadingId (s : String) : String :=
  let run := s.data.takeWhile isHexDash
  if run.isEmpty then s
  else
    match s.data.drop run.length with
    | '_' :: rest => ⟨rest⟩
    | _ => s

/-- Fuelled worker for `re.sub(r"_processed_[0-9a-fA-F-]+", "", s)`:
left-to-right scan; on a match, the literal `"_processed_"` plus the
maximal (non-empty) class run is removed and scanning resumes after it. -/
def subProcessedIdFuel : Nat → List Char → List Char
  | 0, s => s
  | _ + 1, [] => []
  | fuel + 1, c :: cs =>
    match stripPre "_processed_".data (c :: cs) with
    | some rest =>
      let run := rest.takeWhile isHexDash
      if run.isEmpty then c :: subProcessedIdFuel fuel cs
      else subProcessedIdFuel fuel (rest.drop run.length)
    | none => c :: subProcessedIdFuel fuel cs

/-- `re.sub(r"\.[^.]+$", "", s)`: remove a final extension (a dot followed
by one or more non-dot characters at the end of the string). -/
def stripFinalExt (s : String) : String :=
  let rev := s.data.reverse
  let run := rev.takeWhile (· ≠ '.')
  if run.isEmpty then s
  else
    match rev.drop run.length with
    | '.' :: rest => ⟨rest.reverse⟩
    | _ => s

/-- `extract_display_name` of `main.py` (defined in the source but never
called by `list_videos`): strip the leading id, every
`_processed_<id>` fragment, and the extension. -/
def extract_display_name (filename : String) : String :=
  stripFinalExt (⟨subProcessedIdFuel (stripLeadingId filename).data.length (stripLeadingId filename).data⟩)

/-! ### Field-by-field visibility of `update_job_status` -/

/-- Apply one field assignment `jobs[job_id][...] = v` to the store. -/
def setField (st : ServerState) (job_id : String) (f : Job → Job) : ServerState :=
  match dictGet st.jobs job_id with
  | none => st
  | some j => { st with jobs := dictSet st.jobs job_id (f j) }

/-- The sequence of states a concurrent reader can observe while
`update_job_status` runs: the source mutates the job dict one field
assignment at a time (status, then `updated_at`, then optionally progress,
error message, and output file together with the placeholder removal),
with no lock held.  Returns the state after each step; empty for an
unknown id. -/
def update_job_micro (st : ServerState) (job_id status : String) (now : Nat)
    (progress : Option Nat) (error_message : Option String)
    (output_file : Option String) : List ServerState :=
  match dictGet st.jobs job_id with
  | none => []
  | some _ =>
    let s1 := setField st job_id (fun j => { j with status := status })
    let s2 := setField s1 job_id (fun j => { j with updated_at := now })
    let s3 := match progress with
      | some p => setField s2 job_id (fun j => { j with progress := p })
      | none => s2
    let s4 := if truthy error_message then
        setField s3 job_id (fun j => { j with error_message := error_message })
      else s3
    if truthy output_file then
      let s5 := setField s4 job_id (fun j => { j with output_file := output_file })
      let s6 : ServerState :=
        { s5 with fs := { s5.fs with outputFiles := fsRemove s5.fs.outputFiles (placeholderName job_id) } }
      [s1, s2, s3, s4, s5, s6]
    else
      [s1, s2, s3, s4]

/-! ### Observation helpers for the claims -/

/-- A terminal job status. -/
def terminalStatus (s : String) : Bool :=
  s == JOB_STATUS_COMPLETE || s == JOB_STATUS_ERROR

/-- The position of a status in the lifecycle order
`pending → downloading/processing → complete/error`. -/
def statusRank (s : String) : Nat :=
  if s = JOB_STATUS_PENDING then 0
  else if s = JOB_STATUS_DOWNLOADING then 1
  else if s = JOB_STATUS_PROCESSING then 1
  else 2

/-- The statuses of a job across a sequence of observed states. -/
def jobStatuses (tr : List ServerState) (job_id : String) : List String :=
  tr.filterMap (fun s => (dictGet s.jobs job_id).map Job.status)

/-- The progress values of a job across a sequence of observed states. -/
def jobProgresses (tr : List ServerState) (job_id : String) : List Nat :=
  tr.filterMap (fun s => (dictGet s.jobs job_id).map Job.progress)

example : splitext "foo.mp4" = ("foo", ".mp4") := by decide

example : splitext ".hidden" = (".hidden", "") := by decide

example : splitext "a.b.c" = ("a.b", ".c") := by decide

example : splitext "foo" = ("foo", "") := by decide

example : strReplaceAll "a_processed_b_processed" "_processed" "" = "a_b" := by decide

example : strHasSub "_processed" "x_processed.mp4" = true := by decide

example : strEnds ".mp4" "clip.mp4" = true := by decide

/-! ### Helper lemmas -/

theorem stripPre_eq_some : ∀ (p s r : List Char), stripPre p s = some r ↔ s = p ++ r
  | [], s, r => by simp [stripPre]
  | p :: ps, [], r => by simp [stripPre]
  | p :: ps, c :: cs, r => by
    by_cases h : p = c
    · subst h
      simp [stripPre, stripPre_eq_some ps cs r]
    · simp only [stripPre, if_neg h]
      constructor
      · intro hh
        exact absurd hh (by simp)
      · intro hh
        exact absurd (List.cons.injEq .. ▸ hh).1 (fun hcp => h hcp.symm)

theorem dictGet_dictSet_self (m : List (String × Job)) (k : String) (v : Job) :
    dictGet (dictSet m k v) k = some v := by
  simp [dictGet, dictSet]

theorem find?_filter_key_ne (k k' : String) (h : k' ≠ k) :
    ∀ m : List (String × Job),
      (m.filter (fun p => p.1 ≠ k)).find? (fun p => p.1 == k') = m.find? (fun p => p.1 == k')
  | [] => by simp
  | (a, b) :: t => by
    have IH := find?_filter_key_ne k k' h t
    by_cases ha : a = k
    · subst ha
      rw [List.filter_cons_of_neg (by simp), List.find?_cons_of_neg _ (by simp; exact fun hh => h hh.symm)]
      exact IH
    · by_cases ha' : a = k'
      · subst ha'
        rw [List.filter_cons_of_pos (by simp [ha]), List.find?_cons_of_pos _ (by simp),
          List.find?_cons_of_pos _ (by simp)]
      · rw [List.filter_cons_of_pos (by simp [ha]), List.find?_cons_of_neg _ (by simp [ha']),
          List.find?_cons_of_neg _ (by simp [ha'])]
        exact IH

theorem dictGet_dictSet_ne (m : List (String × Job)) (k k' : String) (v : Job)
    (h : k' ≠ k) : dictGet (dictSet m k v) k' = dictGet m k' := by
  unfold dictGet dictSet
  rw [List.find?_cons_of_neg _ (by simp; exact fun hh => h hh.symm), find?_filter_key_ne k k' h m]

theorem dictSet_dictSet (m : List (String × Job)) (k : String) (v v' : Job) :
    dictSet (dictSet m k v) k v' = dictSet m k v' := by
  simp [dictSet, List.filter_filter]

theorem cleanup_outputFiles (w : CleanupWorld) (fs : FS) (wd inp : Option String) :
    (cleanup_directories w fs wd inp).outputFiles = fs.outputFiles := by
  obtain ⟨rf, df⟩ := w
  cases wd <;> cases inp <;> cases rf <;> cases df <;>
    simp only [cleanup_directories, cleanup_attempt]
  all_goals try split_ifs
  all_goals try simp
  all_goals try split_ifs
  all_goals simp

theorem cleanup_inputFiles_none (w : CleanupWorld) (fs : FS) (wd : Option String) :
    (cleanup_directories w fs wd none).inputFiles = fs.inputFiles := by
  obtain ⟨rf, df⟩ := w
  cases wd <;> cases rf <;> cases df <;>
    simp only [cleanup_directories, cleanup_attempt]
  all_goals try split_ifs
  all_goals simp

theorem cleanup_removes_wd (w : CleanupWorld) (fs : FS) (d : String) (inp : Option String)
    (h : w.rmtreeFails = false) :
    d ∉ (cleanup_directories w fs (some d) inp).workingDirs := by
  obtain ⟨rf, df⟩ := w
  subst h
  cases inp <;> cases df <;>
    simp only [cleanup_directories, cleanup_attempt]
  all_goals try split_ifs
  all_goals try simp_all [List.mem_filter]
  all_goals try split_ifs
  all_goals simp_all [List.mem_filter]

theorem process_video_error (w : ExternalWorld) (cw : CleanupWorld) (fs : FS)
    (vf pid m : String) (h : pipelineFailure w = some m) :
    process_video w cw fs vf false true pid =
      .error (m, cleanup_directories cw (fsAddDir fs (workingDirName pid))
        (some (workingDirName pid)) none) := by
  obtain ⟨tok, sp, iso, mer⟩ := w
  unfold pipelineFailure at h
  cases sp <;> cases tok <;> cases iso <;> cases mer <;>
    simp_all [process_video, split_video_streams, isolate_vocals_with_replicate,
      merge_audio_video_streams]

theorem process_video_ok (w : ExternalWorld) (cw : CleanupWorld) (fs : FS)
    (vf pid : String) (h : pipelineFailure w = none) :
    process_video w cw fs vf false true pid =
      .ok (rawOutputName vf pid,
        cleanup_directories cw
          { fsAddDir fs (workingDirName pid) with
            outputFiles :=
              fsWrite (fsAddDir fs (workingDirName pid)).outputFiles (rawOutputName vf pid) pid }
          (some (workingDirName pid)) (some vf)) := by
  obtain ⟨tok, sp, iso, mer⟩ := w
  unfold pipelineFailure at h
  cases sp <;> cases tok <;> cases iso <;> cases mer <;>
    simp_all [process_video, split_video_streams, isolate_vocals_with_replicate,
      merge_audio_video_streams]

theorem update_progress_only (st : ServerState) (job_id status : String) (now p : Nat)
    (j : Job) (h : dictGet st.jobs job_id = some j) :
    update_job_status st job_id status now (some p) none none =
      { st with jobs := dictSet st.jobs job_id
                  { j with status := status, updated_at := now, progress := p } } := by
  simp [update_job_status, h, truthy]

theorem update_error_set (st : ServerState) (job_id : String) (now p : Nat) (m : String)
    (j : Job) (h : dictGet st.jobs job_id = some j) (hm : m ≠ "") :
    update_job_status st job_id JOB_STATUS_ERROR now (some p) (some m) none =
      { st with jobs := dictSet st.jobs job_id
                  { j with status := JOB_STATUS_ERROR, updated_at := now, progress := p,
                           error_message := some m } } := by
  simp [update_job_status, h, truthy, hm]

theorem update_error_empty (st : ServerState) (job_id : String) (now p : Nat)
    (j : Job) (h : dictGet st.jobs job_id = some j) :
    update_job_status st job_id JOB_STATUS_ERROR now (some p) (some "") none =
      { st with jobs := dictSet st.jobs job_id
                  { j with status := JOB_STATUS_ERROR, updated_at := now, progress := p } } := by
  simp [update_job_status, h, truthy]

theorem update_complete_set (st : ServerState) (job_id : String) (now : Nat) (f : String)
    (j : Job) (h : dictGet st.jobs job_id = some j) (hf : f ≠ "") :
    update_job_status st job_id JOB_STATUS_COMPLETE now (some 100) none (some f) =
      { jobs := dictSet st.jobs job_id
          { j with status := JOB_STATUS_COMPLETE, updated_at := now, progress := 100,
                   output_file := some f }
        fs := { st.fs with outputFiles := fsRemove st.fs.outputFiles (placeholderName job_id) } } := by
  simp [update_job_status, h, truthy, hf]

theorem cleanName_ne_empty (s : String) : cleanName s ≠ "" := by
  unfold cleanName
  intro hh
  have hlen := congrArg String.length hh
  have h10 : ("_processed" : String).length = 10 := rfl
  simp [String.length_append, h10] at hlen

theorem async_error (w : ExternalWorld) (cw : CleanupWorld) (st : ServerState)
    (job_id vfp pid : String) (now : Nat) (m : String) (j : Job)
    (h : dictGet st.jobs job_id = some j) (hw : pipelineFailure w = some m) :
    process_video_async w cw st job_id vfp pid now =
      { jobs := dictSet st.jobs job_id
          { j with status := JOB_STATUS_ERROR, updated_at := now, progress := 100,
                   error_message := if m = "" then j.error_message else some m }
        fs := cleanup_directories cw (fsAddDir st.fs (workingDirName pid))
          (some (workingDirName pid)) none } := by
  have h1 := update_progress_only st job_id JOB_STATUS_PROCESSING now 25 j h
  have hg1 := dictGet_dictSet_self st.jobs job_id
    { j with status := JOB_STATUS_PROCESSING, updated_at := now, progress := 25 }
  unfold process_video_async
  dsimp only
  rw [h1]
  rw [update_progress_only _ _ _ _ _ _ hg1, dictSet_dictSet]
  rw [process_video_error w cw _ vfp pid m hw]
  dsimp only
  have hg2 := dictGet_dictSet_self st.jobs job_id
    { j with status := JOB_STATUS_PROCESSING, updated_at := now, progress := 50 }
  by_cases hm : m = ""
  · subst hm
    rw [update_error_empty _ _ _ _ _ hg2, dictSet_dictSet]
    simp
  · rw [update_error_set _ _ _ _ _ _ hg2 hm, dictSet_dictSet]
    simp [hm]

theorem async_ok (w : ExternalWorld) (cw : CleanupWorld) (st : ServerState)
    (job_id vfp pid : String) (now : Nat) (j : Job)
    (h : dictGet st.jobs job_id = some j) (hw : pipelineFailure w = none) :
    process_video_async w cw st job_id vfp pid now =
      (let raw := rawOutputName vfp pid
       let fsB := cleanup_directories cw
          { fsAddDir st.fs (workingDirName pid) with
            outputFiles := fsWrite (fsAddDir st.fs (workingDirName pid)).outputFiles raw pid }
          (some (workingDirName pid)) (some vfp)
       let clean := cleanName j.original_filename
       let fsC := fsMove fsB raw clean
       { jobs := dictSet st.jobs job_id
           { j with status := JOB_STATUS_COMPLETE, updated_at := now, progress := 100,
                    output_file := some clean }
         fs := { fsC with outputFiles := fsRemove fsC.outputFiles (placeholderName job_id) } }) := by
  have h1 := update_progress_only st job_id JOB_STATUS_PROCESSING now 25 j h
  have hg1 := dictGet_dictSet_self st.jobs job_id
    { j with status := JOB_STATUS_PROCESSING, updated_at := now, progress := 25 }
  unfold process_video_async
  dsimp only
  rw [h1]
  rw [update_progress_only _ _ _ _ _ _ hg1, dictSet_dictSet]
  rw [process_video_ok w cw _ vfp pid hw]
  dsimp only
  have hex : fsExists
      (cleanup_directories cw
        { fsAddDir st.fs (workingDirName pid) with
          outputFiles := fsWrite (fsAddDir st.fs (workingDirName pid)).outputFiles
            (rawOutputName vfp pid) pid }
        (some (workingDirName pid)) (some vfp)) (rawOutputName vfp pid) = true := by
    simp [fsExists, cleanup_outputFiles, fsWrite]
  have hg2 := dictGet_dictSet_self st.jobs job_id
    { j with status := JOB_STATUS_PROCESSING, updated_at := now, progress := 50 }
  simp only [hex, if_true, hg2]
  rw [update_complete_set _ _ _ _ _ hg2 (cleanName_ne_empty _), dictSet_dictSet]

theorem filterKey_of_filterNe (n c : String) :
    ∀ l : List (String × String),
      ((l.filter (fun p => p.1 ≠ n)).filter (fun p => p.1 == c)) =
        if c = n then [] else l.filter (fun p => p.1 == c)
  | [] => by simp
  | (a, b) :: t => by
    have IH := filterKey_of_filterNe n c t
    by_cases hc : c = n
    · subst hc
      simp only [if_pos rfl] at IH ⊢
      by_cases ha : a = c
      · subst ha
        rw [List.filter_cons_of_neg (by simp)]
        exact IH
      · rw [List.filter_cons_of_pos (by simp [ha]), List.filter_cons_of_neg (by simp [ha])]
        exact IH
    · simp only [if_neg hc] at IH ⊢
      by_cases ha : a = n
      · subst ha
        rw [List.filter_cons_of_neg (by simp), List.filter_cons_of_neg (by simp; exact fun hh => hc hh.symm)]
        exact IH
      · by_cases ha' : a = c
        · subst ha'
          rw [List.filter_cons_of_pos (by simp [ha]), List.filter_cons_of_pos (by simp),
            List.filter_cons_of_pos (by simp)]
          rw [IH]
        · rw [List.filter_cons_of_pos (by simp [ha]), List.filter_cons_of_neg (by simp [ha']),
            List.filter_cons_of_neg (by simp [ha'])]
          exact IH

theorem filterKey_fsWrite_self (l : List (String × String)) (n t : String) :
    (fsWrite l n t).filter (fun p => p.1 == n) = [(n, t)] := by
  unfold fsWrite
  rw [List.filter_cons_of_pos (by simp)]
  rw [filterKey_of_filterNe n n l]
  simp

theorem filterKey_fsRemove_ne (l : List (String × String)) (n c : String) (h : c ≠ n) :
    (fsRemove l n).filter (fun p => p.1 == c) = l.filter (fun p => p.1 == c) := by
  unfold fsRemove
  rw [filterKey_of_filterNe n c l, if_neg h]

theorem find?_fsWrite_self (l : List (String × String)) (n t : String) :
    (fsWrite l n t).find? (fun p => p.1 == n) = some (n, t) := by
  simp [fsWrite]

theorem setField_some (st : ServerState) (job_id : String) (f : Job → Job) (j : Job)
    (h : dictGet st.jobs job_id = some j) :
    setField st job_id f = { st with jobs := dictSet st.jobs job_id (f j) } := by
  simp [setField, h]

theorem fsAddDir_inputFiles (fs : FS) (d : String) :
    (fsAddDir fs d).inputFiles = fs.inputFiles := by
  unfold fsAddDir
  split_ifs <;> rfl

theorem cleanup_wd_only (w : CleanupWorld) (fs : FS) (d : String) :
    cleanup_directories w fs (some d) none =
      if d ∈ fs.workingDirs ∧ w.rmtreeFails = false
      then { fs with workingDirs := fs.workingDirs.filter (· ≠ d) } else fs := by
  obtain ⟨rf, df⟩ := w
  unfold cleanup_directories cleanup_attempt
  cases rf <;> simp only <;> split_ifs <;> simp_all

/-! ### The claims -/

/-- C9: workspace release (`cleanup_directories`) never raises past its
boundary and is idempotent: a deletion error inside the `try` block is
swallowed, returning the state reached at the failure point; releasing an
absent directory is a no-op; and releasing twice (after a successful or a
failed first release) produces no error and leaves the state of the first
release unchanged. -/
theorem c9_release_safety (w w2 : CleanupWorld) (fs : FS) (d : String) :
    (∀ m f, cleanup_attempt w fs (some d) none = .error (m, f) →
      cleanup_directories w fs (some d) none = f)
    ∧ (d ∉ fs.workingDirs → cleanup_directories w fs (some d) none = fs)
    ∧ (w.rmtreeFails = false →
        cleanup_directories w2 (cleanup_directories w fs (some d) none) (some d) none =
          cleanup_directories w fs (some d) none)
    ∧ cleanup_directories w (cleanup_directories w fs (some d) none) (some d) none =
        cleanup_directories w fs (some d) none := by
  have hmain := cleanup_wd_only w fs d
  refine ⟨?_, ?_, ?_, ?_⟩
  · intro m f hE
    unfold cleanup_directories
    rw [hE]
  · intro hd
    rw [hmain, if_neg (by simp [hd])]
  · intro hrm
    by_cases hd : d ∈ fs.workingDirs
    · rw [hmain, if_pos ⟨hd, hrm⟩]
      rw [cleanup_wd_only w2 _ d, if_neg (by simp [List.mem_filter])]
    · rw [hmain, if_neg (by simp [hd]), cleanup_wd_only w2, if_neg (by simp [hd])]
  · by_cases hrm : w.rmtreeFails = false
    · by_cases hd : d ∈ fs.workingDirs
      · rw [hmain, if_pos ⟨hd, hrm⟩]
        rw [cleanup_wd_only w _ d, if_neg (by simp [List.mem_filter])]
      · rw [hmain, if_neg (by simp [hd]), hmain, if_neg (by simp [hd])]
    · rw [hmain, if_neg (by simp [hrm]), hmain, if_neg (by simp [hrm])]

theorem c9_witness :
    ((false : Bool) = false)
    ∧ cleanup_directories { rmtreeFails := false, removeFails := false }
        (cleanup_directories { rmtreeFails := false, removeFails := false }
          { inputFiles := [], outputFiles := [], workingDirs := ["job_p1"] }
          (some "job_p1") none)
        (some "job_p1") none =
      cleanup_directories { rmtreeFails := false, removeFails := false }
        { inputFiles := [], outputFiles := [], workingDirs := ["job_p1"] }
        (some "job_p1") none :=
  ⟨rfl,
    (c9_release_safety { rmtreeFails := false, removeFails := false }
      { rmtreeFails := false, removeFails := false }
      { inputFiles := [], outputFiles := [], workingDirs := ["job_p1"] } "job_p1").2.2.1 rfl⟩

/-- C8 counterexample: for the output file
`"14df_clip_processed_ba61.mp4"` (leading id `14df`, trailing id fragment
`_processed_ba61`), the listing reports display name `"14df_clip_ba61"`
(only the `"_processed"` marker removed), while stripping the leading id
and trailing id fragments — computed by the source's own (unused)
`extract_display_name` — yields `"clip"`.  The two differ, so the listing
does not report the id-stripped display name the claim describes. -/
theorem c8_counterexample :
    (list_videos [{ name := "14df_clip_processed_ba61.mp4", sizeBytes := 100, ctime := 5 }]).map
        (fun r => r.display_name) = ["14df_clip_ba61"]
    ∧ extract_display_name "14df_clip_processed_ba61.mp4" = "clip"
    ∧ ("14df_clip_ba61" : String) ≠ "clip" := by
  refine ⟨rfl, rfl, by decide⟩

/-- C8 (amended): the artifact listing enumerates exactly the files in the
output store whose names end in a video extension and contain
`"_processed"`, and for each reports its size and creation time together
with a display name obtained from the stem by deleting every
`"_processed"` occurrence — the leading and trailing id fragments are NOT
stripped (the id-stripping helper `extract_display_name` exists in the
source but is never called). -/
theorem c8_listing_amended (dir : List DirEntry) (r : VideoRow) :
    r ∈ list_videos dir ↔
      ∃ e, e ∈ dir
        ∧ (allowed_extensions.any (fun x => strEnds x e.name)
            && strHasSub "_processed" e.name) = true
        ∧ r = { filename := e.name
                display_name := strReplaceAll (splitext e.name).1 "_processed" ""
                sizeBytes := e.sizeBytes
                ctime := e.ctime } := by
  unfold list_videos matchesConvention
  simp only [List.mem_map, List.mem_filter]
  constructor
  · rintro ⟨e, ⟨he, hc⟩, hr⟩
    exact ⟨e, he, hc, hr.symm⟩
  · rintro ⟨e, he, hc, hr⟩
    exact ⟨e, ⟨he, hc⟩, hr.symm⟩

theorem c8_witness :
    { filename := "14df_clip_processed_ba61.mp4"
      display_name := "14df_clip_ba61"
      sizeBytes := 100
      ctime := 5 : VideoRow } ∈
      list_videos [{ name := "14df_clip_processed_ba61.mp4", sizeBytes := 100, ctime := 5 }] :=
  (c8_listing_amended [{ name := "14df_clip_processed_ba61.mp4", sizeBytes := 100, ctime := 5 }]
      _).mpr
    ⟨{ name := "14df_clip_processed_ba61.mp4", sizeBytes := 100, ctime := 5 },
      by decide, by decide, by decide⟩

/-- C6 counterexample: uploading `"clip.mp4"` when the two generated uuids
are `"aaaa"` (for the stored filename) and `"bbbb"` (generated inside
`create_job` for the job record, overwriting the `job_id` variable): the
caller is redirected to job `"bbbb"`, but the file is persisted as
`"aaaa_clip.mp4"` — the returned job id is not a prefix of the stored
name. -/
theorem c6_counterexample :
    (create_video_job emptyState (some "clip.mp4") "aaaa" "bbbb" 0).2 =
        UploadResult.redirectToJob "bbbb"
    ∧ (create_video_job emptyState (some "clip.mp4") "aaaa" "bbbb" 0).1.fs.inputFiles =
        ["aaaa_clip.mp4"]
    ∧ ((dictGet (create_video_job emptyState (some "clip.mp4") "aaaa" "bbbb" 0).1.jobs
        "bbbb").map Job.video_file_path) = some "aaaa_clip.mp4"
    ∧ strStarts "bbbb" "aaaa_clip.mp4" = false := by
  refine ⟨by decide, by decide, by decide, by decide⟩

/-- C6 (amended): an accepted upload is persisted in the input store under
the collision-resistant name `u1 ++ "_" ++ filename`, where `u1` is a
freshly generated uuid; the job created for the upload, however, carries a
second, independently generated id `u2` (the one returned to the caller
and retrievable via the status query), and `u2` is not a prefix of the
stored name whenever the two same-length uuids differ.  The job record
still points at the stored file through its `video_file_path`. -/
theorem c6_upload_amended (st : ServerState) (filename u1 u2 : String) (now : Nat)
    (hext : strLower (splitext filename).2 ∈ allowed_extensions) :
    (create_video_job st (some filename) u1 u2 now).2 = .redirectToJob u2
    ∧ (u1 ++ "_" ++ filename) ∈ (create_video_job st (some filename) u1 u2 now).1.fs.inputFiles
    ∧ (∃ jb, dictGet (create_video_job st (some filename) u1 u2 now).1.jobs u2 = some jb
        ∧ jb.video_file_path = u1 ++ "_" ++ filename
        ∧ jb.original_filename = filename
        ∧ jb.status = JOB_STATUS_PENDING ∧ jb.progress = 0)
    ∧ get_video_status (create_video_job st (some filename) u1 u2 now).1 u2 =
        .processingView u2 filename 0
    ∧ (u1.length = u2.length → u1 ≠ u2 →
        strStarts u2 (u1 ++ "_" ++ filename) = false) := by
  unfold create_video_job
  dsimp only
  rw [if_pos hext]
  dsimp only
  refine ⟨rfl, ?_, ?_, ?_, ?_⟩
  · simp [create_job]
  · simp only [create_job]
    exact ⟨_, dictGet_dictSet_self _ _ _, rfl, rfl, rfl, rfl⟩
  · simp only [create_job]
    unfold get_video_status
    rw [dictGet_dictSet_self]
    simp
  · intro hlen hne
    cases hb : strStarts u2 (u1 ++ "_" ++ filename)
    · rfl
    · exfalso
      unfold strStarts startsw at hb
      rw [Option.isSome_iff_exists] at hb
      obtain ⟨r, hr⟩ := hb
      rw [stripPre_eq_some, String.data_append, String.data_append] at hr
      rw [List.append_assoc] at hr
      have hl : u2.data.length = u1.data.length := hlen.symm
      have := List.append_inj hr.symm hl
      exact hne (String.ext this.1.symm)

theorem c6_witness :
    (strLower (splitext "clip.mp4").2 ∈ allowed_extensions)
    ∧ get_video_status (create_video_job emptyState (some "clip.mp4") "aaaa" "bbbb" 0).1
        "bbbb" = .processingView "bbbb" "clip.mp4" 0 :=
  ⟨by decide,
    (c6_upload_amended emptyState "clip.mp4" "aaaa" "bbbb" 0 (by decide)).2.2.2.1⟩

/-- C1 counterexample: run a job to the Error state (failing split step).
The placeholder file, which only the Complete transition removes, is still
present, so the status query returns the processing view (with progress
100) instead of the error view the claim requires for an Error job. -/
theorem c1_counterexample :
    (let stE := process_video_async
        { tokenPresent := true, split := .fail "boom", isolate := .ok, merge := .ok }
        { rmtreeFails := false, removeFails := false }
        (create_job emptyState "j1" 0 "u_clip.mp4" "clip.mp4") "j1" "u_clip.mp4" "p1" 1
     ((dictGet stE.jobs "j1").map Job.status = some JOB_STATUS_ERROR
       ∧ fsExists stE.fs (placeholderName "j1") = true
       ∧ get_video_status stE "j1" = .processingView "j1" "clip.mp4" 100)) := by
  exact ⟨by decide, by decide, by decide⟩

/-- C1 (amended): the status query is a pure function of the state (it
returns a view and mutates nothing).  For an unknown id it returns the
NotFound view; for a non-terminal status it returns the processing view
with the job's numeric progress; while the job's placeholder file exists
it returns the processing view regardless of status (in particular for an
Error job, whose placeholder the error path never removes); once the
placeholder is absent, a Complete job with a non-empty output file is
redirected to the artifact's detail view and an Error job gets the error
view with the stored message. -/
theorem c1_status_query_amended (st : ServerState) (job_id : String) :
    (dictGet st.jobs job_id = none → get_video_status st job_id = .notFound job_id)
    ∧ (∀ jb, dictGet st.jobs job_id = some jb →
        ((jb.status = JOB_STATUS_PENDING ∨ jb.status = JOB_STATUS_DOWNLOADING ∨
            jb.status = JOB_STATUS_PROCESSING) →
          get_video_status st job_id = .processingView job_id jb.original_filename jb.progress)
        ∧ (fsExists st.fs (placeholderName job_id) = true →
            get_video_status st job_id = .processingView job_id jb.original_filename jb.progress)
        ∧ (fsExists st.fs (placeholderName job_id) = false →
            ((jb.status = JOB_STATUS_COMPLETE →
              ∀ f, jb.output_file = some f → f ≠ "" →
                get_video_status st job_id = .redirectToVideo f)
            ∧ (jb.status = JOB_STATUS_ERROR →
                get_video_status st job_id = .errorView jb.error_message)))) := by
  constructor
  · intro h
    simp [get_video_status, h]
  · intro jb hjb
    refine ⟨?_, ?_, ?_⟩
    · intro hs
      rcases hs with h | h | h <;> simp [get_video_status, hjb, h]
    · intro hp
      simp [get_video_status, hjb, hp]
    · intro hp
      constructor
      · intro hc f hf hfne
        simp [get_video_status, hjb, hp, hc, hf, hfne, JOB_STATUS_COMPLETE,
          JOB_STATUS_PENDING, JOB_STATUS_DOWNLOADING, JOB_STATUS_PROCESSING]
      · intro he
        simp [get_video_status, hjb, hp, he, JOB_STATUS_ERROR, JOB_STATUS_COMPLETE,
          JOB_STATUS_PENDING, JOB_STATUS_DOWNLOADING, JOB_STATUS_PROCESSING]

theorem c1_witness :
    get_video_status emptyState "nojob" = .notFound "nojob"
    ∧ get_video_status
        { jobs := [("j1",
            { id := "j1", video_file_path := "u_clip.mp4", original_filename := "clip.mp4"
              status := "error", created_at := 0, updated_at := 1
              error_message := some "boom", output_file := none, progress := 100 })]
          fs := emptyFS } "j1" = .errorView (some "boom") :=
  ⟨(c1_status_query_amended emptyState "nojob").1 rfl,
    (((c1_status_query_amended
        { jobs := [("j1",
            { id := "j1", video_file_path := "u_clip.mp4", original_filename := "clip.mp4"
              status := "error", created_at := 0, updated_at := 1
              error_message := some "boom", output_file := none, progress := 100 })]
          fs := emptyFS } "j1").2 _ rfl).2.2 rfl).2 rfl⟩

/-- C5 counterexample: during the Complete update, the state right after
the first field assignment (`jobs[job_id]["status"] = status`) already
reports status Complete while `output_file` is still `None` — a concrete
partially-updated record a concurrent reader can observe, refuting
"updates become visible as a whole" and "a record whose status is
Complete always has a non-empty outputFile at the moment it is read". -/
theorem c5_counterexample :
    (let stP := update_job_status (create_job emptyState "j1" 0 "u_clip.mp4" "clip.mp4")
        "j1" JOB_STATUS_PROCESSING 1 (some 50) none none
     let micro := update_job_micro stP "j1" JOB_STATUS_COMPLETE 2 (some 100) none
        (some "clip_processed.mp4")
     ((micro.head?.bind (fun s => dictGet s.jobs "j1")).map
        (fun jb => (jb.status, jb.output_file)) = some (JOB_STATUS_COMPLETE, none))) := by
  decide

/-- C5 (amended): `update_job_status` mutates the job record one field
assignment at a time with no lock held, so a concurrent reader can observe
partially-updated records.  For the Complete update the first observable
state carries the new status with all other fields (in particular
`output_file`) unchanged, and only the final micro-step state coincides
with the whole-record update. -/
theorem c5_microstep_amended (st : ServerState) (job_id : String) (now : Nat) (f : String)
    (j : Job) (h : dictGet st.jobs job_id = some j) (hf : f ≠ "") :
    (update_job_micro st job_id JOB_STATUS_COMPLETE now (some 100) none (some f)).head? =
      some { st with jobs := dictSet st.jobs job_id { j with status := JOB_STATUS_COMPLETE } }
    ∧ (update_job_micro st job_id JOB_STATUS_COMPLETE now (some 100) none (some f)).getLast? =
      some (update_job_status st job_id JOB_STATUS_COMPLETE now (some 100) none (some f)) := by
  have e1 := setField_some st job_id (fun jj => { jj with status := JOB_STATUS_COMPLETE }) j h
  have g1 := dictGet_dictSet_self st.jobs job_id { j with status := JOB_STATUS_COMPLETE }
  have e2 := setField_some
    { st with jobs := dictSet st.jobs job_id { j with status := JOB_STATUS_COMPLETE } }
    job_id (fun jj => { jj with updated_at := now }) _ g1
  have g2 := dictGet_dictSet_self st.jobs job_id
    { j with status := JOB_STATUS_COMPLETE, updated_at := now }
  have e3 := setField_some
    { st with jobs := dictSet st.jobs job_id { j with status := JOB_STATUS_COMPLETE, updated_at := now } }
    job_id (fun jj => { jj with progress := 100 }) _ g2
  have g3 := dictGet_dictSet_self st.jobs job_id
    { j with status := JOB_STATUS_COMPLETE, updated_at := now, progress := 100 }
  have e4 := setField_some
    { st with jobs := dictSet st.jobs job_id { j with status := JOB_STATUS_COMPLETE, updated_at := now, progress := 100 } }
    job_id (fun jj => { jj with output_file := some f }) _ g3
  have hbne : (f != "") = true := by simp [hf]
  rw [update_complete_set st job_id now f j h hf]
  unfold update_job_micro
  rw [h]
  dsimp only
  simp only [truthy, hbne, eq_self_iff_true, Bool.false_eq_true, if_true, if_false]
  rw [e1]
  dsimp only
  rw [e2]
  dsimp only
  rw [dictSet_dictSet]
  rw [e3]
  dsimp only
  rw [dictSet_dictSet]
  rw [e4]
  dsimp only
  rw [dictSet_dictSet]
  exact ⟨rfl, rfl⟩

theorem c5_witness :
    ((dictGet (update_job_status (create_job emptyState "j1" 0 "u_clip.mp4" "clip.mp4")
        "j1" JOB_STATUS_PROCESSING 1 (some 50) none none).jobs "j1").isSome = true
      ∧ ("clip_processed.mp4" : String) ≠ "")
    ∧ (update_job_micro (update_job_status (create_job emptyState "j1" 0 "u_clip.mp4" "clip.mp4")
        "j1" JOB_STATUS_PROCESSING 1 (some 50) none none)
        "j1" JOB_STATUS_COMPLETE 2 (some 100) none (some "clip_processed.mp4")).getLast? =
      some (update_job_status (update_job_status (create_job emptyState "j1" 0 "u_clip.mp4" "clip.mp4")
        "j1" JOB_STATUS_PROCESSING 1 (some 50) none none)
        "j1" JOB_STATUS_COMPLETE 2 (some 100) none (some "clip_processed.mp4")) :=
  ⟨⟨by decide, by decide⟩,
    (c5_microstep_amended
      (update_job_status (create_job emptyState "j1" 0 "u_clip.mp4" "clip.mp4")
        "j1" JOB_STATUS_PROCESSING 1 (some 50) none none)
      "j1" 2 "clip_processed.mp4"
      { id := "j1", video_file_path := "u_clip.mp4", original_filename := "clip.mp4"
        status := "processing", created_at := 0, updated_at := 1
        error_message := none, output_file := none, progress := 50 }
      (by decide) (by decide)).2⟩

/-- C4: for a job in the store with status Pending, the sequence of states
its background run makes observable carries the statuses
`[pending, processing, processing, t]` with `t` terminal (Complete or
Error); the status rank is monotone along the whole run and the run ends in
a terminal status.  The worker performs exactly these updates and is the
only writer of its job, so the job never leaves a terminal status. -/
theorem c4_status_monotonic (w : ExternalWorld) (cw : CleanupWorld) (st : ServerState)
    (job_id vfp pid : String) (now : Nat) (j : Job)
    (h : dictGet st.jobs job_id = some j) (hs : j.status = JOB_STATUS_PENDING) :
    ∃ t, jobStatuses (pipelineTrace w cw st job_id vfp pid now) job_id =
        [JOB_STATUS_PENDING, JOB_STATUS_PROCESSING, JOB_STATUS_PROCESSING, t]
      ∧ (t = JOB_STATUS_COMPLETE ∨ t = JOB_STATUS_ERROR)
      ∧ terminalStatus t = true
      ∧ List.Chain' (fun a b => statusRank a ≤ statusRank b)
          [JOB_STATUS_PENDING, JOB_STATUS_PROCESSING, JOB_STATUS_PROCESSING, t] := by
  have h1 := update_progress_only st job_id JOB_STATUS_PROCESSING now 25 j h
  have hg1 := dictGet_dictSet_self st.jobs job_id
    { j with status := JOB_STATUS_PROCESSING, updated_at := now, progress := 25 }
  have h2 : update_job_status
      { st with jobs := dictSet st.jobs job_id { j with status := JOB_STATUS_PROCESSING, updated_at := now, progress := 25 } }
      job_id JOB_STATUS_PROCESSING now (some 50) none none =
      { st with jobs := dictSet st.jobs job_id { j with status := JOB_STATUS_PROCESSING, updated_at := now, progress := 50 } } := by
    rw [update_progress_only _ _ _ _ _ _ hg1, dictSet_dictSet]
  cases hpf : pipelineFailure w with
  | some m =>
    have hA := async_error w cw st job_id vfp pid now m j h hpf
    refine ⟨JOB_STATUS_ERROR, ?_, Or.inr rfl, by decide,
      by simp only [List.chain'_cons, List.chain'_singleton]
         exact ⟨by decide, by decide, by decide⟩⟩
    unfold jobStatuses pipelineTrace
    dsimp only
    rw [h1, h2, hA]
    simp [h, hs, dictGet_dictSet_self]
  | none =>
    have hA := async_ok w cw st job_id vfp pid now j h hpf
    refine ⟨JOB_STATUS_COMPLETE, ?_, Or.inl rfl, by decide,
      by simp only [List.chain'_cons, List.chain'_singleton]
         exact ⟨by decide, by decide, by decide⟩⟩
    unfold jobStatuses pipelineTrace
    dsimp only
    rw [h1, h2, hA]
    simp [h, hs, dictGet_dictSet_self]

theorem c4_witness :
    ((dictGet (create_job emptyState "j1" 0 "u_clip.mp4" "clip.mp4").jobs "j1").map
        Job.status = some JOB_STATUS_PENDING)
    ∧ ∃ t, jobStatuses
        (pipelineTrace { tokenPresent := true, split := .ok, isolate := .ok, merge := .ok }
          { rmtreeFails := false, removeFails := false }
          (create_job emptyState "j1" 0 "u_clip.mp4" "clip.mp4") "j1" "u_clip.mp4" "p1" 1)
        "j1" =
        [JOB_STATUS_PENDING, JOB_STATUS_PROCESSING, JOB_STATUS_PROCESSING, t]
      ∧ (t = JOB_STATUS_COMPLETE ∨ t = JOB_STATUS_ERROR)
      ∧ terminalStatus t = true
      ∧ List.Chain' (fun a b => statusRank a ≤ statusRank b)
          [JOB_STATUS_PENDING, JOB_STATUS_PROCESSING, JOB_STATUS_PROCESSING, t] :=
  ⟨by decide,
    c4_status_monotonic { tokenPresent := true, split := .ok, isolate := .ok, merge := .ok }
      { rmtreeFails := false, removeFails := false }
      (create_job emptyState "j1" 0 "u_clip.mp4" "clip.mp4") "j1" "u_clip.mp4" "p1" 1
      { id := "j1", video_file_path := "u_clip.mp4", original_filename := "clip.mp4"
        status := "pending", created_at := 0, updated_at := 0
        error_message := none, output_file := none, progress := 0 }
      (by decide) (by decide)⟩

/-- C7: for a freshly created job (status Pending, progress 0), the
progress values the run makes observable are exactly `[0, 25, 50, 100]`:
integers bounded by 100, non-decreasing across the job's updates, and
equal to 100 only in a state whose status is terminal. -/
theorem c7_progress_bounds (w : ExternalWorld) (cw : CleanupWorld) (st : ServerState)
    (job_id vfp pid : String) (now : Nat) (j : Job)
    (h : dictGet st.jobs job_id = some j) (hp : j.progress = 0) :
    jobProgresses (pipelineTrace w cw st job_id vfp pid now) job_id = [0, 25, 50, 100]
    ∧ List.Chain' (fun a b => a ≤ b) [0, 25, 50, 100]
    ∧ (∀ x ∈ jobProgresses (pipelineTrace w cw st job_id vfp pid now) job_id, x ≤ 100)
    ∧ (∀ s ∈ pipelineTrace w cw st job_id vfp pid now, ∀ jb,
        dictGet s.jobs job_id = some jb → jb.progress = 100 →
          terminalStatus jb.status = true) := by
  have h1 := update_progress_only st job_id JOB_STATUS_PROCESSING now 25 j h
  have hg1 := dictGet_dictSet_self st.jobs job_id
    { j with status := JOB_STATUS_PROCESSING, updated_at := now, progress := 25 }
  have h2 : update_job_status
      { st with jobs := dictSet st.jobs job_id { j with status := JOB_STATUS_PROCESSING, updated_at := now, progress := 25 } }
      job_id JOB_STATUS_PROCESSING now (some 50) none none =
      { st with jobs := dictSet st.jobs job_id { j with status := JOB_STATUS_PROCESSING, updated_at := now, progress := 50 } } := by
    rw [update_progress_only _ _ _ _ _ _ hg1, dictSet_dictSet]
  cases hpf : pipelineFailure w with
  | some m =>
    have hA := async_error w cw st job_id vfp pid now m j h hpf
    have htr : jobProgresses (pipelineTrace w cw st job_id vfp pid now) job_id
        = [0, 25, 50, 100] := by
      unfold jobProgresses pipelineTrace
      dsimp only
      rw [h1, h2, hA]
      simp [h, hp, dictGet_dictSet_self]
    refine ⟨htr,
      by simp only [List.chain'_cons, List.chain'_singleton]
         exact ⟨by decide, by decide, by decide⟩, ?_, ?_⟩
    · rw [htr]
      intro x hx
      simp only [List.mem_cons, List.not_mem_nil, or_false] at hx
      rcases hx with rfl | rfl | rfl | rfl <;> omega
    · unfold pipelineTrace
      dsimp only
      rw [h1, h2, hA]
      intro s hsmem jb hjb hjp
      simp only [List.mem_cons, List.not_mem_nil, or_false] at hsmem
      rcases hsmem with rfl | rfl | rfl | rfl
      · simp only [h, Option.some.injEq] at hjb
        subst hjb
        omega
      · simp only [dictGet_dictSet_self, Option.some.injEq] at hjb
        subst hjb
        simp at hjp
      · simp only [dictGet_dictSet_self, Option.some.injEq] at hjb
        subst hjb
        simp at hjp
      · simp only [dictGet_dictSet_self, Option.some.injEq] at hjb
        subst hjb
        show terminalStatus JOB_STATUS_ERROR = true
        decide
  | none =>
    have hA := async_ok w cw st job_id vfp pid now j h hpf
    have htr : jobProgresses (pipelineTrace w cw st job_id vfp pid now) job_id
        = [0, 25, 50, 100] := by
      unfold jobProgresses pipelineTrace
      dsimp only
      rw [h1, h2, hA]
      simp [h, hp, dictGet_dictSet_self]
    refine ⟨htr,
      by simp only [List.chain'_cons, List.chain'_singleton]
         exact ⟨by decide, by decide, by decide⟩, ?_, ?_⟩
    · rw [htr]
      intro x hx
      simp only [List.mem_cons, List.not_mem_nil, or_false] at hx
      rcases hx with rfl | rfl | rfl | rfl <;> omega
    · unfold pipelineTrace
      dsimp only
      rw [h1, h2, hA]
      intro s hsmem jb hjb hjp
      simp only [List.mem_cons, List.not_mem_nil, or_false] at hsmem
      rcases hsmem with rfl | rfl | rfl | rfl
      · simp only [h, Option.some.injEq] at hjb
        subst hjb
        omega
      · simp only [dictGet_dictSet_self, Option.some.injEq] at hjb
        subst hjb
        simp at hjp
      · simp only [dictGet_dictSet_self, Option.some.injEq] at hjb
        subst hjb
        simp at hjp
      · simp only [dictGet_dictSet_self, Option.some.injEq] at hjb
        subst hjb
        show terminalStatus JOB_STATUS_COMPLETE = true
        decide

theorem c7_witness :
    ((dictGet (create_job emptyState "j1" 0 "u_clip.mp4" "clip.mp4").jobs "j1").map
        (fun jb => (jb.status, jb.progress)) = some (JOB_STATUS_PENDING, 0))
    ∧ jobProgresses
        (pipelineTrace { tokenPresent := true, split := .fail "boom", isolate := .ok, merge := .ok }
          { rmtreeFails := false, removeFails := false }
          (create_job emptyState "j1" 0 "u_clip.mp4" "clip.mp4") "j1" "u_clip.mp4" "p1" 1)
        "j1" = [0, 25, 50, 100] :=
  ⟨by decide,
    (c7_progress_bounds { tokenPresent := true, split := .fail "boom", isolate := .ok, merge := .ok }
      { rmtreeFails := false, removeFails := false }
      (create_job emptyState "j1" 0 "u_clip.mp4" "clip.mp4") "j1" "u_clip.mp4" "p1" 1
      { id := "j1", video_file_path := "u_clip.mp4", original_filename := "clip.mp4"
        status := "pending", created_at := 0, updated_at := 0
        error_message := none, output_file := none, progress := 0 }
      (by decide) (by decide)).1⟩

/-- C2 counterexample: a pipeline run that fails with an exception whose
message is the empty string (`str(e) == ""`).  The job ends in Error with
progress 100, but `update_job_status` guards the assignment with Python
truthiness (`if error_message:`), so the error message is NOT set to the
cause — it stays `None`. -/
theorem c2_counterexample :
    (let stE := process_video_async
        { tokenPresent := true, split := .fail "", isolate := .ok, merge := .ok }
        { rmtreeFails := false, removeFails := false }
        (create_job emptyState "j1" 0 "u_clip.mp4" "clip.mp4") "j1" "u_clip.mp4" "p1" 1
     (dictGet stE.jobs "j1").map (fun jb => (jb.status, jb.progress, jb.error_message)) =
       some (JOB_STATUS_ERROR, 100, none)) := by
  decide

/-- C2 (amended): for every pipeline execution that fails with an uncaught
error at any stage (split, missing credential, remote isolation, merge),
the job ends with status Error and progress 100; the error message is set
to the cause whenever the cause's string form is non-empty (an empty
message leaves `error_message` unchanged, due to the truthiness guard);
the per-job workspace directory is removed whenever the best-effort
deletion succeeds; and the uploaded source file is not deleted — the
input store is exactly as before the run. -/
theorem c2_error_path_amended (w : ExternalWorld) (cw : CleanupWorld) (st : ServerState)
    (job_id vfp pid : String) (now : Nat) (m : String) (j : Job)
    (h : dictGet st.jobs job_id = some j) (hm : pipelineFailure w = some m)
    (hc : cw.rmtreeFails = false) :
    (∃ jb, dictGet (process_video_async w cw st job_id vfp pid now).jobs job_id = some jb
      ∧ jb.status = JOB_STATUS_ERROR ∧ jb.progress = 100
      ∧ (m ≠ "" → jb.error_message = some m)
      ∧ (m = "" → jb.error_message = j.error_message))
    ∧ workingDirName pid ∉ (process_video_async w cw st job_id vfp pid now).fs.workingDirs
    ∧ (process_video_async w cw st job_id vfp pid now).fs.inputFiles = st.fs.inputFiles := by
  have hA := async_error w cw st job_id vfp pid now m j h hm
  rw [hA]
  refine ⟨⟨_, dictGet_dictSet_self _ _ _, rfl, rfl, ?_, ?_⟩, ?_, ?_⟩
  · intro hne
    simp [hne]
  · intro he
    simp [he]
  · exact cleanup_removes_wd cw _ _ none hc
  · rw [cleanup_inputFiles_none, fsAddDir_inputFiles]

theorem c2_witness :
    (pipelineFailure { tokenPresent := false, split := .ok, isolate := .ok, merge := .ok } =
        some "REPLICATE_API_TOKEN not found in environment variables")
    ∧ (∃ jb, dictGet (process_video_async
          { tokenPresent := false, split := .ok, isolate := .ok, merge := .ok }
          { rmtreeFails := false, removeFails := false }
          (create_job emptyState "j1" 0 "u_clip.mp4" "clip.mp4") "j1" "u_clip.mp4" "p1" 1).jobs
          "j1" = some jb
        ∧ jb.status = JOB_STATUS_ERROR ∧ jb.progress = 100
        ∧ ("REPLICATE_API_TOKEN not found in environment variables" ≠ "" →
            jb.error_message = some "REPLICATE_API_TOKEN not found in environment variables")
        ∧ ("REPLICATE_API_TOKEN not found in environment variables" = "" →
            jb.error_message =
              ({ id := "j1", video_file_path := "u_clip.mp4", original_filename := "clip.mp4"
                 status := "pending", created_at := 0, updated_at := 0
                 error_message := none, output_file := none, progress := 0 } : Job).error_message))
    ∧ workingDirName "p1" ∉ (process_video_async
          { tokenPresent := false, split := .ok, isolate := .ok, merge := .ok }
          { rmtreeFails := false, removeFails := false }
          (create_job emptyState "j1" 0 "u_clip.mp4" "clip.mp4") "j1" "u_clip.mp4" "p1" 1).fs.workingDirs
    ∧ (process_video_async
          { tokenPresent := false, split := .ok, isolate := .ok, merge := .ok }
          { rmtreeFails := false, removeFails := false }
          (create_job emptyState "j1" 0 "u_clip.mp4" "clip.mp4") "j1" "u_clip.mp4" "p1" 1).fs.inputFiles =
        (create_job emptyState "j1" 0 "u_clip.mp4" "clip.mp4").fs.inputFiles :=
  ⟨by decide,
    (c2_error_path_amended
      { tokenPresent := false, split := .ok, isolate := .ok, merge := .ok }
      { rmtreeFails := false, removeFails := false }
      (create_job emptyState "j1" 0 "u_clip.mp4" "clip.mp4") "j1" "u_clip.mp4" "p1" 1
      "REPLICATE_API_TOKEN not found in environment variables"
      { id := "j1", video_file_path := "u_clip.mp4", original_filename := "clip.mp4"
        status := "pending", created_at := 0, updated_at := 0
        error_message := none, output_file := none, progress := 0 }
      (by decide) (by decide) (by decide)).1,
    (c2_error_path_amended
      { tokenPresent := false, split := .ok, isolate := .ok, merge := .ok }
      { rmtreeFails := false, removeFails := false }
      (create_job emptyState "j1" 0 "u_clip.mp4" "clip.mp4") "j1" "u_clip.mp4" "p1" 1
      "REPLICATE_API_TOKEN not found in environment variables"
      { id := "j1", video_file_path := "u_clip.mp4", original_filename := "clip.mp4"
        status := "pending", created_at := 0, updated_at := 0
        error_message := none, output_file := none, progress := 0 }
      (by decide) (by decide) (by decide)).2.1,
    (c2_error_path_amended
      { tokenPresent := false, split := .ok, isolate := .ok, merge := .ok }
      { rmtreeFails := false, removeFails := false }
      (create_job emptyState "j1" 0 "u_clip.mp4" "clip.mp4") "j1" "u_clip.mp4" "p1" 1
      "REPLICATE_API_TOKEN not found in environment variables"
      { id := "j1", video_file_path := "u_clip.mp4", original_filename := "clip.mp4"
        status := "pending", created_at := 0, updated_at := 0
        error_message := none, output_file := none, progress := 0 }
      (by decide) (by decide) (by decide)).2.2⟩

/-- C3 counterexample: a job that reaches the terminal Error state with an
empty-message cause has BOTH `error_message` and `output_file` empty —
"exactly one of the two is non-empty in a terminal state" fails. -/
theorem c3_counterexample :
    (let stE := process_video_async
        { tokenPresent := true, split := .ok, isolate := .fail "", merge := .ok }
        { rmtreeFails := false, removeFails := false }
        (create_job emptyState "j2" 0 "u_clip.mp4" "clip.mp4") "j2" "u_clip.mp4" "p2" 1
     (dictGet stE.jobs "j2").map
        (fun jb => (terminalStatus jb.status, truthy jb.error_message, truthy jb.output_file)) =
       some (true, false, false)) := by
  decide

/-- C3 (amended): for a freshly created job driven to its terminal state
by the background run: while the job is non-terminal neither
`error_message` nor `output_file` is ever set; in the terminal state,
`output_file` is non-empty exactly when the status is Complete and
`error_message` is empty there; in the Error state `output_file` is empty
and `error_message` is set to the (non-empty) failure message — but a
failure whose message is empty leaves `error_message` unset, so "exactly
one non-empty" admits that exception. -/
theorem c3_terminal_fields_amended (w : ExternalWorld) (cw : CleanupWorld)
    (st0 : ServerState) (u vfp ofn pid : String) (n1 n2 : Nat) :
    (∀ s ∈ pipelineTrace w cw (create_job st0 u n1 vfp ofn) u vfp pid n2, ∀ jb,
        dictGet s.jobs u = some jb → terminalStatus jb.status = false →
          jb.error_message = none ∧ jb.output_file = none)
    ∧ (∃ jb, dictGet (process_video_async w cw (create_job st0 u n1 vfp ofn) u vfp pid n2).jobs
          u = some jb
        ∧ terminalStatus jb.status = true
        ∧ (jb.status = JOB_STATUS_COMPLETE →
            truthy jb.output_file = true ∧ jb.error_message = none)
        ∧ (jb.status = JOB_STATUS_ERROR →
            jb.output_file = none
            ∧ (∀ m, pipelineFailure w = some m → m ≠ "" → jb.error_message = some m)
            ∧ (pipelineFailure w = some "" → jb.error_message = none))) := by
  have h0 := dictGet_dictSet_self st0.jobs u
    { id := u, video_file_path := vfp, original_filename := ofn,
      status := JOB_STATUS_PENDING, created_at := n1, updated_at := n1,
      error_message := none, output_file := none, progress := 0 }
  have hcr : dictGet (create_job st0 u n1 vfp ofn).jobs u = some
      { id := u, video_file_path := vfp, original_filename := ofn,
        status := JOB_STATUS_PENDING, created_at := n1, updated_at := n1,
        error_message := none, output_file := none, progress := 0 } := by
    simp only [create_job]
    exact h0
  have h1 := update_progress_only (create_job st0 u n1 vfp ofn) u JOB_STATUS_PROCESSING n2 25 _ hcr
  have hg1 := dictGet_dictSet_self (create_job st0 u n1 vfp ofn).jobs u
    { id := u, video_file_path := vfp, original_filename := ofn,
      status := JOB_STATUS_PROCESSING, created_at := n1, updated_at := n2,
      error_message := none, output_file := none, progress := 25 }
  have h2 : update_job_status
      { create_job st0 u n1 vfp ofn with jobs := dictSet (create_job st0 u n1 vfp ofn).jobs u { id := u, video_file_path := vfp, original_filename := ofn, status := JOB_STATUS_PROCESSING, created_at := n1, updated_at := n2, error_message := none, output_file := none, progress := 25 } }
      u JOB_STATUS_PROCESSING n2 (some 50) none none =
      { create_job st0 u n1 vfp ofn with jobs := dictSet (create_job st0 u n1 vfp ofn).jobs u { id := u, video_file_path := vfp, original_filename := ofn, status := JOB_STATUS_PROCESSING, created_at := n1, updated_at := n2, error_message := none, output_file := none, progress := 50 } } := by
    rw [update_progress_only _ _ _ _ _ _ hg1, dictSet_dictSet]
  constructor
  · intro s hsmem jb hjb hterm
    cases hpf : pipelineFailure w with
    | some m =>
      have hA := async_error w cw (create_job st0 u n1 vfp ofn) u vfp pid n2 m _ hcr hpf
      unfold pipelineTrace at hsmem
      dsimp only at hsmem
      rw [h1, h2, hA] at hsmem
      simp only [List.mem_cons, List.not_mem_nil, or_false] at hsmem
      rcases hsmem with rfl | rfl | rfl | rfl
      · simp only [hcr, Option.some.injEq] at hjb
        subst hjb
        exact ⟨rfl, rfl⟩
      · simp only [dictGet_dictSet_self, Option.some.injEq] at hjb
        subst hjb
        exact ⟨rfl, rfl⟩
      · simp only [dictGet_dictSet_self, Option.some.injEq] at hjb
        subst hjb
        exact ⟨rfl, rfl⟩
      · simp only [dictGet_dictSet_self, Option.some.injEq] at hjb
        subst hjb
        exact absurd hterm (by simp [terminalStatus])
    | none =>
      have hA := async_ok w cw (create_job st0 u n1 vfp ofn) u vfp pid n2 _ hcr hpf
      unfold pipelineTrace at hsmem
      dsimp only at hsmem
      rw [h1, h2, hA] at hsmem
      simp only [List.mem_cons, List.not_mem_nil, or_false] at hsmem
      rcases hsmem with rfl | rfl | rfl | rfl
      · simp only [hcr, Option.some.injEq] at hjb
        subst hjb
        exact ⟨rfl, rfl⟩
      · simp only [dictGet_dictSet_self, Option.some.injEq] at hjb
        subst hjb
        exact ⟨rfl, rfl⟩
      · simp only [dictGet_dictSet_self, Option.some.injEq] at hjb
        subst hjb
        exact ⟨rfl, rfl⟩
      · simp only [dictGet_dictSet_self, Option.some.injEq] at hjb
        subst hjb
        exact absurd hterm (by simp [terminalStatus])
  · cases hpf : pipelineFailure w with
    | some m =>
      have hA := async_error w cw (create_job st0 u n1 vfp ofn) u vfp pid n2 m _ hcr hpf
      rw [hA]
      refine ⟨_, dictGet_dictSet_self _ _ _,
        (by decide : terminalStatus JOB_STATUS_ERROR = true), ?_, ?_⟩
      · intro hc
        exact absurd (show JOB_STATUS_ERROR = JOB_STATUS_COMPLETE from hc) (by decide)
      · intro _
        refine ⟨rfl, ?_, ?_⟩
        · intro m2 hm2 hne
          injection hm2 with hm2
          subst hm2
          simp [hne]
        · intro hm0
          injection hm0 with hm0
          subst hm0
          simp
    | none =>
      have hA := async_ok w cw (create_job st0 u n1 vfp ofn) u vfp pid n2 _ hcr hpf
      rw [hA]
      refine ⟨_, dictGet_dictSet_self _ _ _,
        (by decide : terminalStatus JOB_STATUS_COMPLETE = true), ?_, ?_⟩
      · intro _
        constructor
        · show truthy (some (cleanName ofn)) = true
          simp [truthy, cleanName_ne_empty]
        · rfl
      · intro hc
        exact absurd (show JOB_STATUS_COMPLETE = JOB_STATUS_ERROR from hc) (by decide)

theorem c3_witness :
    ∃ jb, dictGet (process_video_async
        { tokenPresent := true, split := .ok, isolate := .ok, merge := .ok }
        { rmtreeFails := false, removeFails := false }
        (create_job emptyState "j3" 0 "u_clip.mp4" "clip.mp4") "j3" "u_clip.mp4" "p3" 1).jobs
        "j3" = some jb
      ∧ terminalStatus jb.status = true
      ∧ (jb.status = JOB_STATUS_COMPLETE →
          truthy jb.output_file = true ∧ jb.error_message = none)
      ∧ (jb.status = JOB_STATUS_ERROR →
          jb.output_file = none
          ∧ (∀ m, pipelineFailure
              { tokenPresent := true, split := .ok, isolate := .ok, merge := .ok } = some m →
              m ≠ "" → jb.error_message = some m)
          ∧ (pipelineFailure
              { tokenPresent := true, split := .ok, isolate := .ok, merge := .ok } = some "" →
              jb.error_message = none)) :=
  (c3_terminal_fields_amended
    { tokenPresent := true, split := .ok, isolate := .ok, merge := .ok }
    { rmtreeFails := false, removeFails := false }
    emptyState "j3" "u_clip.mp4" "clip.mp4" "p3" 0 1).2

theorem async_ok_filter_clean (w : ExternalWorld) (cw : CleanupWorld) (st : ServerState)
    (job_id vfp pid : String) (now : Nat) (j : Job)
    (h : dictGet st.jobs job_id = some j) (hw : pipelineFailure w = none)
    (hph : cleanName j.original_filename ≠ placeholderName job_id) :
    (process_video_async w cw st job_id vfp pid now).fs.outputFiles.filter
      (fun p => p.1 == cleanName j.original_filename) =
      [(cleanName j.original_filename, pid)] := by
  rw [async_ok w cw st job_id vfp pid now j h hw]
  dsimp only
  rw [show fsRemove = fun (files : List (String × String)) name => files.filter (fun p => p.1 ≠ name) from rfl]
  dsimp only
  rw [filterKey_of_filterNe, if_neg hph]
  have hfind : (cleanup_directories cw
      { fsAddDir st.fs (workingDirName pid) with
        outputFiles := fsWrite (fsAddDir st.fs (workingDirName pid)).outputFiles
          (rawOutputName vfp pid) pid }
      (some (workingDirName pid)) (some vfp)).outputFiles.find?
      (fun p => p.1 == rawOutputName vfp pid) = some (rawOutputName vfp pid, pid) := by
    rw [cleanup_outputFiles]
    exact find?_fsWrite_self _ _ _
  unfold fsMove
  rw [hfind]
  dsimp only
  exact filterKey_fsWrite_self _ _ _

/-- C10: two jobs whose `originalFilename` values are equal derive the
same clean output name `stem ++ "_processed" ++ ext`; when both complete,
the second run's `shutil.move` overwrites the first run's artifact (the
single surviving entry under that name carries the second run's pipeline
id), and both job records report the same `outputFile`. -/
theorem c10_same_name_overwrites (st0 : ServerState)
    (ofn u1 u2 vfp1 vfp2 pid1 pid2 : String) (w1 w2 : ExternalWorld)
    (cw1 cw2 : CleanupWorld) (n1 n2 n3 n4 : Nat)
    (hu : u1 ≠ u2)
    (hw1 : pipelineFailure w1 = none) (hw2 : pipelineFailure w2 = none)
    (hph2 : cleanName ofn ≠ placeholderName u2) :
    (∃ ja, dictGet (process_video_async w2 cw2
          (process_video_async w1 cw1 (create_job (create_job st0 u1 n1 vfp1 ofn) u2 n2 vfp2 ofn)
            u1 vfp1 pid1 n3) u2 vfp2 pid2 n4).jobs u1 = some ja
        ∧ ja.output_file = some (cleanName ofn))
    ∧ (∃ jb, dictGet (process_video_async w2 cw2
          (process_video_async w1 cw1 (create_job (create_job st0 u1 n1 vfp1 ofn) u2 n2 vfp2 ofn)
            u1 vfp1 pid1 n3) u2 vfp2 pid2 n4).jobs u2 = some jb
        ∧ jb.output_file = some (cleanName ofn))
    ∧ (process_video_async w2 cw2
          (process_video_async w1 cw1 (create_job (create_job st0 u1 n1 vfp1 ofn) u2 n2 vfp2 ofn)
            u1 vfp1 pid1 n3) u2 vfp2 pid2 n4).fs.outputFiles.filter
        (fun p => p.1 == cleanName ofn) = [(cleanName ofn, pid2)] := by
  have hcrA : dictGet (create_job st0 u1 n1 vfp1 ofn).jobs u1 = some
      { id := u1, video_file_path := vfp1, original_filename := ofn,
        status := JOB_STATUS_PENDING, created_at := n1, updated_at := n1,
        error_message := none, output_file := none, progress := 0 } := by
    simp only [create_job]
    exact dictGet_dictSet_self _ _ _
  have hcrB2 : dictGet (create_job (create_job st0 u1 n1 vfp1 ofn) u2 n2 vfp2 ofn).jobs u2 =
      some
        { id := u2, video_file_path := vfp2, original_filename := ofn,
          status := JOB_STATUS_PENDING, created_at := n2, updated_at := n2,
          error_message := none, output_file := none, progress := 0 } := by
    simp only [create_job]
    exact dictGet_dictSet_self _ _ _
  have hcrB1 : dictGet (create_job (create_job st0 u1 n1 vfp1 ofn) u2 n2 vfp2 ofn).jobs u1 =
      some
        { id := u1, video_file_path := vfp1, original_filename := ofn,
          status := JOB_STATUS_PENDING, created_at := n1, updated_at := n1,
          error_message := none, output_file := none, progress := 0 } := by
    simp only [create_job]
    rw [dictGet_dictSet_ne _ _ _ _ hu]
    exact hcrA
  have hA1 := async_ok w1 cw1 (create_job (create_job st0 u1 n1 vfp1 ofn) u2 n2 vfp2 ofn)
    u1 vfp1 pid1 n3 _ hcrB1 hw1
  have hcrC2 : dictGet (process_video_async w1 cw1
      (create_job (create_job st0 u1 n1 vfp1 ofn) u2 n2 vfp2 ofn) u1 vfp1 pid1 n3).jobs u2 =
      some
        { id := u2, video_file_path := vfp2, original_filename := ofn,
          status := JOB_STATUS_PENDING, created_at := n2, updated_at := n2,
          error_message := none, output_file := none, progress := 0 } := by
    rw [hA1]
    dsimp only
    rw [dictGet_dictSet_ne _ _ _ _ (fun hh => hu hh.symm)]
    exact hcrB2
  have hA2 := async_ok w2 cw2 (process_video_async w1 cw1
      (create_job (create_job st0 u1 n1 vfp1 ofn) u2 n2 vfp2 ofn) u1 vfp1 pid1 n3)
    u2 vfp2 pid2 n4 _ hcrC2 hw2
  refine ⟨?_, ?_, ?_⟩
  · refine
      ⟨{ id := u1, video_file_path := vfp1, original_filename := ofn,
         status := JOB_STATUS_COMPLETE, created_at := n1, updated_at := n3,
         error_message := none, output_file := some (cleanName ofn), progress := 100 },
       ?_, rfl⟩
    rw [hA2]
    dsimp only
    rw [dictGet_dictSet_ne _ _ _ _ hu, hA1]
    dsimp only
    exact dictGet_dictSet_self _ _ _
  · refine
      ⟨{ id := u2, video_file_path := vfp2, original_filename := ofn,
         status := JOB_STATUS_COMPLETE, created_at := n2, updated_at := n4,
         error_message := none, output_file := some (cleanName ofn), progress := 100 },
       ?_, rfl⟩
    rw [hA2]
    dsimp only
    exact dictGet_dictSet_self _ _ _
  · exact async_ok_filter_clean w2 cw2 _ u2 vfp2 pid2 n4 _ hcrC2 hw2 hph2

theorem c10_witness :
    (("aaaa" : String) ≠ "bbbb")
    ∧ (pipelineFailure { tokenPresent := true, split := .ok, isolate := .ok, merge := .ok } = none)
    ∧ (cleanName "clip.mp4" ≠ placeholderName "bbbb")
    ∧ ((∃ ja, dictGet (process_video_async
          { tokenPresent := true, split := .ok, isolate := .ok, merge := .ok }
          { rmtreeFails := false, removeFails := false }
          (process_video_async { tokenPresent := true, split := .ok, isolate := .ok, merge := .ok }
            { rmtreeFails := false, removeFails := false }
            (create_job (create_job emptyState "aaaa" 0 "f1.mp4" "clip.mp4") "bbbb" 1 "f2.mp4" "clip.mp4")
            "aaaa" "f1.mp4" "p1" 2) "bbbb" "f2.mp4" "p2" 3).jobs "aaaa" = some ja
        ∧ ja.output_file = some (cleanName "clip.mp4"))
      ∧ (∃ jb, dictGet (process_video_async
          { tokenPresent := true, split := .ok, isolate := .ok, merge := .ok }
          { rmtreeFails := false, removeFails := false }
          (process_video_async { tokenPresent := true, split := .ok, isolate := .ok, merge := .ok }
            { rmtreeFails := false, removeFails := false }
            (create_job (create_job emptyState "aaaa" 0 "f1.mp4" "clip.mp4") "bbbb" 1 "f2.mp4" "clip.mp4")
            "aaaa" "f1.mp4" "p1" 2) "bbbb" "f2.mp4" "p2" 3).jobs "bbbb" = some jb
        ∧ jb.output_file = some (cleanName "clip.mp4"))
      ∧ (process_video_async
          { tokenPresent := true, split := .ok, isolate := .ok, merge := .ok }
          { rmtreeFails := false, removeFails := false }
          (process_video_async { tokenPresent := true, split := .ok, isolate := .ok, merge := .ok }
            { rmtreeFails := false, removeFails := false }
            (create_job (create_job emptyState "aaaa" 0 "f1.mp4" "clip.mp4") "bbbb" 1 "f2.mp4" "clip.mp4")
            "aaaa" "f1.mp4" "p1" 2) "bbbb" "f2.mp4" "p2" 3).fs.outputFiles.filter
          (fun p => p.1 == cleanName "clip.mp4") = [(cleanName "clip.mp4", "p2")]) :=
  ⟨by decide, by decide, by decide,
    c10_same_name_overwrites emptyState "clip.mp4" "aaaa" "bbbb" "f1.mp4" "f2.mp4" "p1" "p2"
      { tokenPresent := true, split := .ok, isolate := .ok, merge := .ok }
      { tokenPresent := true, split := .ok, isolate := .ok, merge := .ok }
      { rmtreeFails := false, removeFails := false }
      { rmtreeFails := false, removeFails := false }
      0 1 2 3 (by decide) (by decide) (by decide) (by decide)⟩

end Demusifier
